import Mathlib

/-!
Verification of the wave-superposition engine of the `asdl_tools` repository
(`waves/base.py`, `waves/wavepacket.py`, `waves/surface.py`).

The numeric code is embedded shallowly:

* machine floats used for grid bookkeeping are modelled exactly by `ℚ`
  (every check in the Python code is an exact `==` / `<` comparison, so the
  control flow is faithfully reproduced by exact arithmetic);
* wave values, which involve `pi` and `exp`, are modelled over `ℝ` / `ℂ`;
* Python exceptions are modelled by `Except PyErr`;
* `numpy.arange(start, stop, step)` is modelled by `arange`, with the numpy
  length rule `max(ceil((stop - start)/step), 0)` and elements
  `start + i*step`.
-/

/-- Python exceptions raised by the modelled code paths. -/
inductive PyErr where
  | valueError (msg : String)
  | typeError (msg : String)
  | attributeError (msg : String)
  | nameError (msg : String)
  | indexError
deriving DecidableEq

/-- Model of `numpy.arange(start, stop, step)`: the number of elements is
`max(ceil((stop - start) / step), 0)` and element `i` is `start + i * step`.
(`numpy` rejects `step = 0`; with Lean division-by-zero conventions the
length is then `0`, a case never exercised by the code.) -/
def arange (start stop step : ℚ) : List ℚ :=
  (List.range (Int.ceil ((stop - start) / step)).toNat).map
    (fun i : ℕ => start + (i : ℚ) * step)

/-- Python `values[-1]` on the modelled (nonempty) arrays: last element,
with an unused default for `[]`. -/
def last0 (l : List ℚ) : ℚ := l.getLastD 0

/-- The discretization state used by `BaseWave._get_time_or_space`
(`waves/base.py`): the configured boundary tuple (`_tlim` / `_xlim`), the
configured step (`dt` / `dx`) and the cached coordinate array
(`_data['time']` / `_data['domain']`, `none` when the cache is unset). -/
structure DiscState where
  boundary : ℚ × ℚ
  step : ℚ
  cached : Option (List ℚ)
deriving DecidableEq

/-- The cache-validity condition tested by `waves/base.py` lines 251-253 on a
cached array with first two elements `x0`, `x1`:
`step == values[1] - values[0] and values[0] == v1 and values[-1] == v2`. -/
def cacheValid (s : DiscState) (x0 x1 : ℚ) (rest : List ℚ) : Prop :=
  s.step = x1 - x0 ∧ x0 = s.boundary.1 ∧ last0 (x0 :: x1 :: rest) = s.boundary.2

instance (s : DiscState) (x0 x1 : ℚ) (rest : List ℚ) :
    Decidable (cacheValid s x0 x1 rest) := by
  unfold cacheValid; infer_instance

/-- Model of `BaseWave._get_time_or_space` (`waves/base.py` lines 232-261), for one of
the two fields, after the unset-parameter check: if the cached array passes
the validity check it is returned with the state untouched; indexing
`values[1]` on a cached array of fewer than two elements raises `IndexError`;
otherwise the sequence is regenerated as
`np.arange(v1, v2 + step / 4, step)`, the boundary is rewritten in place to
`(new[0], new[-1])` (an empty regenerated array raises `IndexError` at
`new[0]`), and the new sequence is returned.

`regenerate` models lines 256-260 (the re-evaluation and in-place boundary
update), `get_time_or_space` the dispatch on the cache check. -/
def regenerate (s : DiscState) : Except PyErr (List ℚ × DiscState) :=
  match arange s.boundary.1 (s.boundary.2 + s.step / 4) s.step with
  | [] => .error .indexError
  | x :: t =>
      .ok (x :: t, { s with boundary := (x, last0 (x :: t)),
                            cached := some (x :: t) })

def get_time_or_space : DiscState → Except PyErr (List ℚ × DiscState)
  | ⟨bd, st, none⟩ => regenerate ⟨bd, st, none⟩
  | ⟨_, _, some []⟩ => .error .indexError
  | ⟨_, _, some [_]⟩ => .error .indexError
  | ⟨bd, st, some (x0 :: x1 :: rest)⟩ =>
      if cacheValid ⟨bd, st, some (x0 :: x1 :: rest)⟩ x0 x1 rest then
        .ok (x0 :: x1 :: rest, ⟨bd, st, some (x0 :: x1 :: rest)⟩)
      else regenerate ⟨bd, st, some (x0 :: x1 :: rest)⟩

/-- Model of `Surface._reflect_position` (`waves/surface.py` lines 226-297).  The
source's region diagram (Dx, Dy are the half-widths, edges `a` top, `b`
right, `c` bottom, `d` left):

region 0 inside; 1 above-left; 2 above; 3 above-right; 4 right; 5
below-right; 6 below; 7 below-left; 8 left.  Mirroring across an edge at
coordinate `b` is `new_coord b p = 2 * b - p`; the returned list of image
positions follows the source's edge order for each region.  `none` models
the `ValueError("something went wrong ...")` branch. -/
def reflect_position {F : Type} [LinearOrderedField F] (Dx Dy x y : F) :
    Option (List (F × F)) :=
  if -Dx < x ∧ x < Dx ∧ -Dy < y ∧ y < Dy then
    some [(x, 2 * Dy - y), (2 * Dx - x, y), (x, 2 * (-Dy) - y),
          (2 * (-Dx) - x, y)]
  else if Dy < y ∧ x < -Dx then
    some [(2 * Dx - x, y), (x, 2 * (-Dy) - y)]
  else if Dy ≤ y ∧ -Dx ≤ x ∧ x < Dx then
    some [(2 * Dx - x, y), (x, 2 * (-Dy) - y), (2 * (-Dx) - x, y)]
  else if Dy < y ∧ Dx ≤ x then
    some [(x, 2 * (-Dy) - y), (2 * (-Dx) - x, y)]
  else if Dx ≤ x ∧ -Dy ≤ y ∧ y ≤ Dy then
    some [(x, 2 * Dy - y), (x, 2 * (-Dy) - y), (2 * (-Dx) - x, y)]
  else if Dx ≤ x ∧ y ≤ -Dy then
    some [(x, 2 * Dy - y), (2 * (-Dx) - x, y)]
  else if y ≤ -Dy ∧ -Dx ≤ x ∧ x < Dx then
    some [(x, 2 * Dy - y), (2 * Dx - x, y), (2 * (-Dx) - x, y)]
  else if y < -Dy ∧ x < -Dx then
    some [(x, 2 * Dy - y), (2 * Dx - x, y)]
  else if x ≤ -Dx ∧ -Dy ≤ y ∧ y ≤ Dy then
    some [(x, 2 * Dy - y), (2 * Dx - x, y), (x, 2 * (-Dy) - y)]
  else none

/-- The guards of the nine region branches of `Surface._reflect_position`,
in source order (regions 0 to 8), as a list of Booleans. -/
def regionFlags {F : Type} [LinearOrderedField F] (Dx Dy x y : F) :
    List Bool :=
  [decide (-Dx < x ∧ x < Dx ∧ -Dy < y ∧ y < Dy),
   decide (Dy < y ∧ x < -Dx),
   decide (Dy ≤ y ∧ -Dx ≤ x ∧ x < Dx),
   decide (Dy < y ∧ Dx ≤ x),
   decide (Dx ≤ x ∧ -Dy ≤ y ∧ y ≤ Dy),
   decide (Dx ≤ x ∧ y ≤ -Dy),
   decide (y ≤ -Dy ∧ -Dx ≤ x ∧ x < Dx),
   decide (y < -Dy ∧ x < -Dx),
   decide (x ≤ -Dx ∧ -Dy ≤ y ∧ y ≤ Dy)]

/-- One entry of `complex_wave` (`waves/base.py` lines 24-30): with
`w = 2*pi*freq` and `k = 2*pi*disprel(freq)`, the phase is
`ps = k*x - w*t` and the entry is `(ps <= 0) * exp(1j*ps)`, i.e.
`exp(i*ps)` when `ps <= 0` and `0` otherwise. -/
noncomputable def complexWaveEntry (disprel : ℝ → ℝ) (freq x t : ℝ) : ℂ :=
  if 2 * Real.pi * disprel freq * x - 2 * Real.pi * freq * t ≤ 0 then
    Complex.exp (Complex.I *
      ((2 * Real.pi * disprel freq * x - 2 * Real.pi * freq * t : ℝ) : ℂ))
  else 0

/-- Model of `complex_wave(disprel, freq, xs, ts)` (`waves/base.py` lines 6-32):
the matrix of shape `(ts.size, xs.size)` whose row `i` is the entry
evaluated at time `ts[i]` over all positions `xs`. -/
noncomputable def complex_wave (disprel : ℝ → ℝ) (freq : ℝ)
    (xs ts : List ℝ) : List (List ℂ) :=
  ts.map (fun t => xs.map (fun x => complexWaveEntry disprel freq x t))


/-- The accumulator of `Wavepacket.eval` (`waves/wavepacket.py` line 301):
Python initializes `data = 0` (an `int`), which stays the scalar `0` when
the spectrum/dispersion loops add nothing, and becomes a complex matrix on
the first `data += complex_wave(...)`. -/
inductive PyData where
  | intScalar
  | matrix (m : List (List ℂ))

/-- One `data += complex_wave(...)` step: the int scalar 0 plus a matrix is
the matrix; two matrices (always of equal shape here) add elementwise. -/
noncomputable def pyAdd : PyData → List (List ℂ) → PyData
  | .intScalar, m => .matrix m
  | .matrix m0, m => .matrix (List.zipWith (List.zipWith (fun u v => u + v)) m0 m)

/-- The accumulation loops of `Wavepacket.eval` (`waves/wavepacket.py`
lines 301-306): for every frequency of the spectrum and every dispersion
relation, add `complex_wave(d, f, xs, ts)`. -/
noncomputable def wpRaw (disprels : List (ℝ → ℝ)) (spectrum : List ℚ)
    (xs ts : List ℝ) : PyData :=
  spectrum.foldl
    (fun acc f => disprels.foldl
      (fun acc2 d => pyAdd acc2 (complex_wave d (f : ℝ) xs ts)) acc)
    PyData.intScalar

/-- Model of `np.max(np.abs(m))` over a complex matrix (0 for the empty matrix,
which the modelled paths never produce). -/
noncomputable def matMaxAbs (m : List (List ℂ)) : ℝ :=
  (m.map (fun r => (r.map Complex.abs).foldl max 0)).foldl max 0

/-- Model of `np.max(np.abs(data))` on the eval accumulator; on the Python int 0 it
is 0. -/
noncomputable def pyMaxAbs : PyData → ℝ
  | .intScalar => 0
  | .matrix m => matMaxAbs m

/-- The 1e-24 normalization guard constant of `Wavepacket.eval` and
`Surface.eval`. -/
noncomputable def normThreshold : ℝ := 1 / 10 ^ 24

/-- The normalization step (`waves/wavepacket.py` lines 308-312): when the
flag is set and the peak absolute value is at least 1e-24, divide the whole
array by the peak; otherwise leave the data untouched. -/
noncomputable def normalizeStep (flag : Bool) (d : PyData) : PyData :=
  if flag = true ∧ normThreshold ≤ pyMaxAbs d then
    match d with
    | .intScalar => .intScalar
    | .matrix m =>
        .matrix (m.map (fun r => r.map (fun z => z / ((matMaxAbs m : ℝ) : ℂ))))
  else d

/-- The envelope step (`waves/wavepacket.py` lines 314-319): with an
envelope function each time-row is multiplied elementwise by the envelope
evaluated over the space grid; on the int-0 accumulator (empty spectrum)
the loop bound `data.shape[0]` raises `AttributeError`. -/
noncomputable def envelopeStep (env : Option (ℝ → ℝ)) (xs : List ℝ) :
    PyData → Except PyErr PyData
  | .intScalar =>
      match env with
      | none => .ok .intScalar
      | some _ => .error (.attributeError "shape")
  | .matrix m =>
      match env with
      | none => .ok (.matrix m)
      | some g =>
          .ok (.matrix (m.map (fun r =>
            List.zipWith (fun z x => z * ((g x : ℝ) : ℂ)) r xs)))

/-- The configuration state of a `Wavepacket` (`waves/wavepacket.py`):
time step `dt` (the `fs` property is `1/dt`), spatial step `dx`, time and
space boundary tuples (`_tlim` / `_xlim`), frequency spectrum, dispersion
relations, normalization flag and optional envelope. -/
structure WPState where
  dt : Option ℚ
  dx : Option ℚ
  tlim : Option (ℚ × ℚ)
  xlim : Option (ℚ × ℚ)
  spectrum : List ℚ
  disprel : List (ℝ → ℝ)
  normalizeFlag : Bool
  envelope : Option (ℝ → ℝ)

/-- Model of `Wavepacket.eval` (`waves/wavepacket.py` lines 280-321): validates that
`fs`, `time`, `dx` and `domain` are set (in that order, raising
`ValueError` otherwise), discretizes time and space with plain
`np.arange(lo, hi, step)` (the `_ts`/`_xs` cache flags are never set, so
regeneration always happens), accumulates the complex waves over
spectrum x dispersion, applies the guarded normalization and then the
envelope. -/
noncomputable def wavepacketEval (w : WPState) : Except PyErr PyData :=
  match w.dt with
  | none => .error (.valueError "fs is not set")
  | some dt =>
    match w.tlim with
    | none => .error (.valueError "time is not set")
    | some (t1, t2) =>
      match w.dx with
      | none => .error (.valueError "dx is not set")
      | some dx =>
        match w.xlim with
        | none => .error (.valueError "domain is not set")
        | some (x1, x2) =>
          let ts := (arange t1 t2 dt).map (fun q : ℚ => (q : ℝ))
          let xs := (arange x1 x2 dx).map (fun q : ℚ => (q : ℝ))
          envelopeStep w.envelope xs
            (normalizeStep w.normalizeFlag (wpRaw w.disprel w.spectrum xs ts))

/-- The global names defined in the module `waves.wavepacket`: the imports
of lines 1-4 and the class `Wavepacket` itself.  The lowercase name
`wavepacket` used by `merge` is not among them. -/
def wavepacketModuleGlobals : List String :=
  ["pi", "Iterable", "np", "base", "Wavepacket"]

def lookupGlobal (n : String) : Option String :=
  if n ∈ wavepacketModuleGlobals then some n else none

/-- Model of `Wavepacket.merge` (`waves/wavepacket.py` lines 323-340).  Line 335
evaluates `isinstance(wp, wavepacket)`: the lowercase global name
`wavepacket` is undefined in the module (the class is `Wavepacket`), so
every call raises `NameError` before any state is touched, for any
argument whatsoever.  (Had the name resolved, line 340 would still read
`self.__disprel`, which name-mangles to the never-assigned attribute
`_Wavepacket__disprel` - the stored attribute is `_disprel` - and raise
`AttributeError` after extending the spectrum.) -/
def wp_merge {A : Type} (_self : WPState) (_other : A) :
    Except PyErr WPState :=
  match lookupGlobal "wavepacket" with
  | none => .error (.nameError "name wavepacket is not defined")
  | some _ => .error (.attributeError "_Wavepacket__disprel")

/-- The grid-building helper of `Surface.__init__` (`waves/surface.py`
line 62): `np.hstack((-np.flip(u[1:]), u))`. -/
def flip_and_hstack (u : List ℚ) : List ℚ :=
  ((u.drop 1).reverse.map (fun a => -a)) ++ u

/-- The constructor parameters of a `Surface` that determine its grids:
sampling frequency, spatial step, the two size components and the time
boundary (already normalized to a tuple). -/
structure SurfaceConfig where
  fs : ℚ
  dx : ℚ
  sizeX : ℚ
  sizeY : ℚ
  tlim : ℚ × ℚ

/-- The x grid vector of `Surface.__init__` (`waves/surface.py` lines
62-63): `flip_and_hstack(np.arange(0, Lx, dx))` with `Lx = sizeX / 2` (the
`space_boundary` setter maps a size `s` to the interval `(-s/2, s/2)`). -/
def x_vect (c : SurfaceConfig) : List ℚ :=
  flip_and_hstack (arange 0 (c.sizeX / 2) c.dx)

/-- The y grid vector (`waves/surface.py` line 64). -/
def y_vect (c : SurfaceConfig) : List ℚ :=
  flip_and_hstack (arange 0 (c.sizeY / 2) c.dx)

/-- The time vector built by `Surface.__init__` (line 60) through
`BaseWave._get_time_or_space` on an empty cache with `dt = 1/fs`: the
regeneration branch `np.arange(t1, t2 + dt/4, dt)`. -/
def surface_time_vect (c : SurfaceConfig) : List ℚ :=
  arange c.tlim.1 (c.tlim.2 + (1 / c.fs) / 4) (1 / c.fs)

/-- The domain rewrite of `Surface.__init__` (line 68):
`self.domain = (x_vect[-1]*2, y_vect[-1]*2)`. -/
def surface_domain (c : SurfaceConfig) : ℚ × ℚ :=
  (2 * last0 (x_vect c), 2 * last0 (y_vect c))

/-- Model of `Surface._add_source_to_list` (`waves/surface.py` lines 179-224) as it
affects the stored source copy: the wavepacket is deep-copied, its data
purged, and `dx` and `fs` are set from the surface (so `dt = 1/fs`).  The
`source.space_boundary = ...` and `source.time_boundary = ...` assignments
of lines 217-219 create plain instance attributes that the `Wavepacket`
class never reads (its eval uses the `domain`/`time` properties, i.e.
`_xlim`/`_tlim`), so `tlim` and `xlim` keep the values the caller's
wavepacket had. -/
def add_source_copy (c : SurfaceConfig) (w : WPState) : WPState :=
  { w with dt := some (1 / c.fs), dx := some c.dx }

/-- Model of `np.max(np.abs(z))` over the 3-dimensional result array. -/
noncomputable def cubeMaxAbs (z : List (List (List ℝ))) : ℝ :=
  (z.map (fun p =>
    (p.map (fun r => (r.map (fun v => |v|)).foldl max 0)).foldl max 0)).foldl
    max 0

/-- The normalization step of `Surface.eval` (lines 314-318), same guard as
the wavepacket one. -/
noncomputable def surfaceNormalize (flag : Bool)
    (z : List (List (List ℝ))) : List (List (List ℝ)) :=
  if flag = true ∧ normThreshold ≤ cubeMaxAbs z then
    z.map (fun p => p.map (fun r => r.map (fun v => v / cubeMaxAbs z)))
  else z

/-- Model of `Surface.eval` (`waves/surface.py` lines 299-320): allocates the zero
array of shape `(y_vect.size, x_vect.size, time_vect.size)`, then for each
stored source runs `src.eval()` (which may raise a `ValueError` if the
copied wavepacket's `time`/`domain` were never configured - `add_source`
only sets the inert `space_boundary`/`time_boundary` attributes) and then
reads `src.x_vect` (line 310) - an attribute the `Wavepacket` class does
not define - so evaluation of any surface with at least one source raises;
with no sources the zero array is (optionally) normalized and stored. -/
noncomputable def surface_eval (c : SurfaceConfig) (flag : Bool) :
    List WPState → Except PyErr (List (List (List ℝ)))
  | [] =>
      .ok (surfaceNormalize flag
        (List.replicate (y_vect c).length
          (List.replicate (x_vect c).length
            (List.replicate (surface_time_vect c).length (0 : ℝ)))))
  | s :: _ =>
      match wavepacketEval s with
      | .error e => .error e
      | .ok _ => .error (.attributeError "x_vect")

/-- The end-to-end scenario surface: `Surface(fs=1000, dx=0.1, size=(1,1),
time=(0, 0.01), ...)`. -/
def c7cfg : SurfaceConfig :=
  { fs := 1000, dx := 1/10, sizeX := 1, sizeY := 1, tlim := (0, 1/100) }

/-- The end-to-end scenario source: a `Wavepacket` with dispersion
`f ↦ f/343`, spectrum `[100]`, `normalize=False`, and no `T`/`L`
configured (they come from the surface in the scenario). -/
noncomputable def c7wp : WPState :=
  { dt := none, dx := none, tlim := none, xlim := none,
    spectrum := [100], disprel := [fun f => f / 343],
    normalizeFlag := false, envelope := none }

/-- Evaluation helper: once the numpy length `ceil((stop-start)/step)` is
known, `arange` is the corresponding range map. -/
lemma arange_eval (s e st : ℚ) (n : ℕ) (h : ⌈(e - s) / st⌉ = (n : ℤ)) :
    arange s e st = (List.range n).map (fun i : ℕ => s + (i : ℚ) * st) := by
  unfold arange
  rw [h, Int.toNat_natCast]

lemma arange_getElem (s e st : ℚ) (i : ℕ) (h : i < (arange s e st).length) :
    (arange s e st)[i]? = some (s + (i : ℚ) * st) := by
  unfold arange at h ⊢
  rw [List.length_map, List.length_range] at h
  rw [List.getElem?_map, List.getElem?_range h]
  rfl

lemma arange_cons_cons {s e st x0 x1 : ℚ} {rest : List ℚ}
    (h : arange s e st = x0 :: x1 :: rest) : x0 = s ∧ x1 = s + st := by
  have hl : 1 < (arange s e st).length := by
    rw [h]; simp only [List.length_cons]; omega
  have h0 : (arange s e st)[0]? = some x0 := by rw [h]; simp
  have h1 : (arange s e st)[1]? = some x1 := by rw [h]; simp
  rw [arange_getElem s e st 0 (by omega)] at h0
  rw [arange_getElem s e st 1 hl] at h1
  have h0' := Option.some.inj h0
  have h1' := Option.some.inj h1
  rw [Nat.cast_zero, zero_mul, add_zero] at h0'
  rw [Nat.cast_one, one_mul] at h1'
  exact ⟨h0'.symm, h1'.symm⟩

/-- A state whose cache passes the validity check returns the cache and
leaves the state untouched. -/
lemma cache_hit (s : DiscState) (x0 x1 : ℚ) (rest : List ℚ)
    (hc : s.cached = some (x0 :: x1 :: rest)) (hv : cacheValid s x0 x1 rest) :
    get_time_or_space s = .ok (x0 :: x1 :: rest, s) := by
  obtain ⟨bd, stp, cach⟩ := s
  simp only at hc
  subst hc
  simp only [get_time_or_space]
  rw [if_pos hv]

/-- After a regeneration that produced at least two samples, the new state
passes its own validity check. -/
lemma regen_stable (s s1 : DiscState) (x x1 : ℚ) (t : List ℚ)
    (harange : arange s.boundary.1 (s.boundary.2 + s.step / 4) s.step
      = x :: x1 :: t)
    (hs1 : s1 = { s with boundary := (x, last0 (x :: x1 :: t)),
                         cached := some (x :: x1 :: t) }) :
    get_time_or_space s1 = .ok (x :: x1 :: t, s1) := by
  obtain ⟨hx0, hx1⟩ := arange_cons_cons harange
  apply cache_hit s1 x x1 t
  · rw [hs1]
  · refine ⟨?_, ?_, ?_⟩
    · rw [hs1]; simp only
      rw [hx0, hx1]; ring
    · rw [hs1]
    · rw [hs1]

/-- A successful call that produced at least two samples is stable under a
second call (regeneration branch). -/
lemma regen_ok_stable (s0 s1 : DiscState) (vs : List ℚ)
    (hok : regenerate s0 = .ok (vs, s1)) (hlen : 2 ≤ vs.length) :
    get_time_or_space s1 = .ok (vs, s1) := by
  unfold regenerate at hok
  rcases harange : arange s0.boundary.1 (s0.boundary.2 + s0.step / 4) s0.step
    with _ | ⟨x, t⟩
  · rw [harange] at hok
    cases hok
  · rw [harange] at hok
    rw [Except.ok.injEq, Prod.mk.injEq] at hok
    obtain ⟨hlist, hstate⟩ := hok
    rcases t with _ | ⟨x1, t'⟩
    · rw [← hlist] at hlen
      simp at hlen
    · rw [← hlist]
      exact regen_stable s0 s1 x x1 t' harange hstate.symm

/-- Claim C2: whenever the cache-validity check fails (no cached sequence,
or a cached sequence whose first-two-point spacing or endpoints differ from
the configured step and boundary), the discretizer regenerates the sequence
exactly as `arange(boundary[0], boundary[1] + step/4, step)` (quarter-step
pad, no other epsilon) and rewrites the stored boundary in place to
`(new_sequence[0], new_sequence[-1])`. -/
theorem c2_cache_miss_regenerates (s : DiscState)
    (hfail : s.cached = none ∨
      ∃ x0 x1 rest, s.cached = some (x0 :: x1 :: rest) ∧
        ¬ cacheValid s x0 x1 rest)
    (x : ℚ) (t : List ℚ)
    (hns : arange s.boundary.1 (s.boundary.2 + s.step / 4) s.step = x :: t) :
    get_time_or_space s =
      .ok (x :: t, { s with boundary := (x, last0 (x :: t)),
                            cached := some (x :: t) }) := by
  have hregen : regenerate s =
      .ok (x :: t, { s with boundary := (x, last0 (x :: t)),
                            cached := some (x :: t) }) := by
    unfold regenerate
    rw [hns]
  obtain ⟨bd, stp, cach⟩ := s
  rcases hfail with h | ⟨x0, x1, rest, hc, hnv⟩
  · simp only at h
    subst h
    simp only [get_time_or_space]
    exact hregen
  · simp only at hc
    subst hc
    simp only [get_time_or_space]
    rw [if_neg hnv]
    exact hregen

/-- Witness for C2 at boundary (0, 1), step 1/2, empty cache: the sequence
is regenerated as `arange(0, 1 + (1/2)/4, 1/2) = [0, 1/2, 1]` and the
boundary becomes `(0, 1)`. -/
theorem c2_cache_miss_regenerates_witness :
    (⟨(0, 1), 1/2, none⟩ : DiscState).cached = none ∧
    arange 0 (1 + (1 : ℚ)/2/4) (1/2) = [0, 1/2, 1] ∧
    get_time_or_space ⟨(0, 1), 1/2, none⟩ =
      .ok ([0, 1/2, 1], ⟨(0, 1), 1/2, some [0, 1/2, 1]⟩) := by
  have harange : arange 0 (1 + (1 : ℚ)/2/4) (1/2) = [0, 1/2, 1] := by
    rw [arange_eval 0 (1 + (1 : ℚ)/2/4) (1/2) 3
      (by rw [Int.ceil_eq_iff] ; norm_num)]
    simp [List.range_succ]
  refine ⟨rfl, harange, ?_⟩
  have h := c2_cache_miss_regenerates ⟨(0, 1), 1/2, none⟩ (Or.inl rfl)
    0 [1/2, 1] harange
  exact h

/-- Counterexample for C3: the claim says that with boundary and step
unchanged a second call returns the identical cached array, and that the
cache is returned exactly when it is non-empty with matching spacing and
endpoints.  With boundary (0, 0) and step 1 (a legal configuration, e.g.
`time = 0`), the first call regenerates the single-sample sequence `[0.]`;
the second call — boundary and step unchanged — then indexes `values[1]`
inside the validity check and raises `IndexError` instead of returning the
(non-empty) cache. -/
theorem c3_counterexample :
    get_time_or_space ⟨(0, 0), 1, none⟩ = .ok ([0], ⟨(0, 0), 1, some [0]⟩) ∧
    get_time_or_space ⟨(0, 0), 1, some [0]⟩ = .error .indexError := by
  constructor
  · have harange : arange 0 (0 + (1 : ℚ) / 4) 1 = [0] := by
      rw [arange_eval 0 (0 + (1 : ℚ)/4) 1 1 (by rw [Int.ceil_eq_iff] ; norm_num)]
      simp [List.range_succ]
    simp only [get_time_or_space]
    unfold regenerate
    simp only
    rw [harange]
    rfl
  · rfl

/-- A state whose cache fails the validity check (or has no cache) falls
through to regeneration. -/
lemma cache_miss (s : DiscState)
    (hfail : s.cached = none ∨
      ∃ x0 x1 rest, s.cached = some (x0 :: x1 :: rest) ∧
        ¬ cacheValid s x0 x1 rest) :
    get_time_or_space s = regenerate s := by
  obtain ⟨bd, stp, cach⟩ := s
  rcases hfail with h | ⟨x0, x1, rest, hc, hnv⟩
  · simp only at h
    subst h
    simp only [get_time_or_space]
  · simp only at hc
    subst hc
    simp only [get_time_or_space]
    rw [if_neg hnv]

/-- Claim C3 (amended): when the cached sequence has at least two points,
the discretizer returns it unchanged (same sequence, untouched state)
exactly when the spacing of its first two points equals the configured step
and its first and last values equal the boundary endpoints under exact
identity; and any successful call producing at least two samples is
idempotent: an immediately repeated call (boundary and step unchanged)
returns the identical sequence and state.  The original claim fails only
for cached sequences of fewer than two points, where the validity check
itself raises `IndexError` (see the counterexample). -/
theorem c3_idempotence_amended (s : DiscState) (x0 x1 : ℚ) (rest : List ℚ)
    (hc : s.cached = some (x0 :: x1 :: rest)) :
    (get_time_or_space s = .ok (x0 :: x1 :: rest, s) ↔
      cacheValid s x0 x1 rest) ∧
    (∀ s0 s1 : DiscState, ∀ vs : List ℚ,
      get_time_or_space s0 = .ok (vs, s1) → 2 ≤ vs.length →
      get_time_or_space s1 = .ok (vs, s1)) := by
  constructor
  · constructor
    · intro heq
      by_contra hnv
      rw [cache_miss s (Or.inr ⟨x0, x1, rest, hc, hnv⟩)] at heq
      unfold regenerate at heq
      rcases harange : arange s.boundary.1 (s.boundary.2 + s.step / 4) s.step
        with _ | ⟨x, t⟩
      · rw [harange] at heq
        cases heq
      · rw [harange] at heq
        rw [Except.ok.injEq, Prod.mk.injEq] at heq
        obtain ⟨hlist, hstate⟩ := heq
        obtain ⟨hx, ht⟩ := List.cons.inj hlist
        have hb : (x, last0 (x :: t)) = s.boundary :=
          congrArg DiscState.boundary hstate
        rw [hx, ht] at harange hb
        obtain ⟨hA, hB⟩ := arange_cons_cons harange
        refine hnv ⟨?_, ?_, ?_⟩
        · rw [hA, hB]; ring
        · exact hA
        · exact congrArg Prod.snd hb
    · intro hv
      exact cache_hit s x0 x1 rest hc hv
  · intro s0 s1 vs hok hlen
    rcases hc0 : s0.cached with _ | vs0
    · rw [cache_miss s0 (Or.inl hc0)] at hok
      exact regen_ok_stable s0 s1 vs hok hlen
    · rcases vs0 with _ | ⟨y0, r0⟩
      · obtain ⟨bd, stp, cach⟩ := s0
        simp only at hc0
        subst hc0
        simp only [get_time_or_space] at hok
        cases hok
      · rcases r0 with _ | ⟨y1, r1⟩
        · obtain ⟨bd, stp, cach⟩ := s0
          simp only at hc0
          subst hc0
          simp only [get_time_or_space] at hok
          cases hok
        · by_cases hv : cacheValid s0 y0 y1 r1
          · rw [cache_hit s0 y0 y1 r1 hc0 hv] at hok
            rw [Except.ok.injEq, Prod.mk.injEq] at hok
            obtain ⟨hlist, hstate⟩ := hok
            subst hstate
            rw [← hlist]
            exact cache_hit s0 y0 y1 r1 hc0 hv
          · rw [cache_miss s0 (Or.inr ⟨y0, y1, r1, hc0, hv⟩)] at hok
            exact regen_ok_stable s0 s1 vs hok hlen

/-- Witness for the amended C3 at a valid cache `[0, 1, 2]` with boundary
(0, 2) and step 1: the cache is returned unchanged. -/
theorem c3_idempotence_amended_witness :
    (⟨(0, 2), 1, some [0, 1, 2]⟩ : DiscState).cached = some [0, 1, 2] ∧
    get_time_or_space ⟨(0, 2), 1, some [0, 1, 2]⟩ =
      .ok ([0, 1, 2], ⟨(0, 2), 1, some [0, 1, 2]⟩) := by
  have h := c3_idempotence_amended ⟨(0, 2), 1, some [0, 1, 2]⟩ 0 1 [2] rfl
  exact ⟨rfl, h.1.mpr ⟨by norm_num, rfl, rfl⟩⟩

/-- Counterexample for C5: the nine region guards are not mutually
exclusive.  With half-widths Dx = Dy = 1, the boundary position
(x, y) = (-1, 1) satisfies both the region-2 guard
(`y >= Dy and -Dx <= x < Dx`, index 2) and the region-8 guard
(`x <= -Dx and -Dy <= y <= Dy`, index 8), so it matches two regions, not
exactly one. -/
theorem c5_counterexample :
    (regionFlags (1 : ℚ) 1 (-1) 1).count true = 2 ∧
    (regionFlags (1 : ℚ) 1 (-1) 1)[2]? = some true ∧
    (regionFlags (1 : ℚ) 1 (-1) 1)[8]? = some true := by
  refine ⟨?_, ?_, ?_⟩ <;> decide

/-- Claim C5 (amended): for every rectangular domain with positive
half-widths, the nine region guards are exhaustive over the whole plane —
the classifier always selects a region, and the invariant-violation branch
(`none`) is unreachable.  The if-elif chain therefore assigns each position
exactly one (the first matching) region; but the raw guards themselves are
not mutually exclusive: they overlap on region-boundary points (see the
counterexample), which is the only part of the original claim that fails. -/
theorem c5_exhaustive_amended {F : Type} [LinearOrderedField F]
    (Dx Dy x y : F) (hx : 0 < Dx) (hy : 0 < Dy) :
    (reflect_position Dx Dy x y).isSome = true := by
  unfold reflect_position
  split_ifs with h0 h1 h2 h3 h4 h5 h6 h7 h8
  all_goals try rfl
  exfalso
  rcases le_or_lt Dx x with hR | hR
  · rcases lt_or_le Dy y with hT | hT
    · exact h3 ⟨hT, hR⟩
    · rcases le_or_lt y (-Dy) with hB | hB
      · exact h5 ⟨hR, hB⟩
      · exact h4 ⟨hR, le_of_lt hB, hT⟩
  · rcases le_or_lt x (-Dx) with hL | hL
    · rcases lt_or_le Dy y with hT | hT
      · rcases lt_or_eq_of_le hL with hL2 | hL2
        · exact h1 ⟨hT, hL2⟩
        · exact h2 ⟨le_of_lt hT, by rw [hL2], by linarith⟩
      · rcases le_or_lt y (-Dy) with hB | hB
        · rcases lt_or_eq_of_le hL with hL2 | hL2
          · rcases lt_or_eq_of_le hB with hB2 | hB2
            · exact h7 ⟨hB2, hL2⟩
            · exact h8 ⟨hL, by rw [hB2], by linarith⟩
          · exact h6 ⟨hB, by rw [hL2], by linarith⟩
        · exact h8 ⟨hL, le_of_lt hB, hT⟩
    · rcases lt_or_le y Dy with hT | hT
      · rcases lt_or_le (-Dy) y with hB | hB
        · exact h0 ⟨hL, hR, hB, hT⟩
        · exact h6 ⟨hB, le_of_lt hL, hR⟩
      · exact h2 ⟨hT, le_of_lt hL, hR⟩

/-- Witness for the amended C5 at Dx = Dy = 1 and the far-outside position
(5, 7): the classifier selects a region (no invariant violation). -/
theorem c5_exhaustive_amended_witness :
    (0 : ℚ) < 1 ∧ (reflect_position (1 : ℚ) 1 5 7).isSome = true :=
  ⟨one_pos, c5_exhaustive_amended (1 : ℚ) 1 5 7 one_pos one_pos⟩

/-- Counterexample for C4: the claim says a position directly outside one
edge is mirrored across that edge and its two neighbours.  With half-widths
Dx = Dy = 1 and the position (0, 2) directly above the top edge `a`, the
claimed image across `a` would be (0, 2*Dy - 2) = (0, 0); the code instead
returns the mirrors across `b`, `c`, `d` — (2, 2), (0, -4), (-2, 2) — and
the image across the adjacent edge `a` is absent. -/
theorem c4_counterexample :
    reflect_position (1 : ℚ) 1 0 2 = some [(2, 2), (0, -4), (-2, 2)] ∧
    ((0 : ℚ), (0 : ℚ)) ∉ [((2 : ℚ), (2 : ℚ)), (0, -4), (-2, 2)] := by
  constructor
  · norm_num [reflect_position]
  · decide

/-- Claim C4 (amended): with positive half-widths, a position inside the
rectangle yields exactly 4 images, one mirrored across each edge; a
position directly outside one edge (within the orthogonal span) yields
exactly 3 images, mirrored across the three OTHER edges (the two
neighbouring edges and the opposite edge, not the adjacent edge); a
position diagonally outside a corner yields exactly 2 images, mirrored
across the two edges NOT adjacent to that corner (the far edges); each
mirror across an edge at coordinate `b` maps the reflected coordinate `p`
to `2*b - p` and leaves the orthogonal coordinate unchanged. -/
theorem c4_reflection_images_amended {F : Type} [LinearOrderedField F]
    (Dx Dy x y : F) (hx : 0 < Dx) (hy : 0 < Dy) :
    ((-Dx < x ∧ x < Dx ∧ -Dy < y ∧ y < Dy) →
      reflect_position Dx Dy x y =
        some [(x, 2 * Dy - y), (2 * Dx - x, y), (x, 2 * (-Dy) - y),
              (2 * (-Dx) - x, y)]) ∧
    ((Dy ≤ y ∧ -Dx ≤ x ∧ x < Dx) →
      reflect_position Dx Dy x y =
        some [(2 * Dx - x, y), (x, 2 * (-Dy) - y), (2 * (-Dx) - x, y)]) ∧
    ((Dx ≤ x ∧ -Dy ≤ y ∧ y ≤ Dy) →
      reflect_position Dx Dy x y =
        some [(x, 2 * Dy - y), (x, 2 * (-Dy) - y), (2 * (-Dx) - x, y)]) ∧
    ((y ≤ -Dy ∧ -Dx ≤ x ∧ x < Dx) →
      reflect_position Dx Dy x y =
        some [(x, 2 * Dy - y), (2 * Dx - x, y), (2 * (-Dx) - x, y)]) ∧
    ((x ≤ -Dx ∧ -Dy < y ∧ y < Dy) →
      reflect_position Dx Dy x y =
        some [(x, 2 * Dy - y), (2 * Dx - x, y), (x, 2 * (-Dy) - y)]) ∧
    ((Dy < y ∧ x < -Dx) →
      reflect_position Dx Dy x y =
        some [(2 * Dx - x, y), (x, 2 * (-Dy) - y)]) ∧
    ((Dy < y ∧ Dx ≤ x) →
      reflect_position Dx Dy x y =
        some [(x, 2 * (-Dy) - y), (2 * (-Dx) - x, y)]) ∧
    ((y < -Dy ∧ Dx ≤ x) →
      reflect_position Dx Dy x y =
        some [(x, 2 * Dy - y), (2 * (-Dx) - x, y)]) ∧
    ((y < -Dy ∧ x < -Dx) →
      reflect_position Dx Dy x y =
        some [(x, 2 * Dy - y), (2 * Dx - x, y)]) := by
  refine ⟨?_, ?_, ?_, ?_, ?_, ?_, ?_, ?_, ?_⟩
  · intro h
    unfold reflect_position
    rw [if_pos h]
  · rintro ⟨b1, b2, b3⟩
    have n0 : ¬(-Dx < x ∧ x < Dx ∧ -Dy < y ∧ y < Dy) := by
      rintro ⟨c1, c2, c3, c4⟩; linarith
    have n1 : ¬(Dy < y ∧ x < -Dx) := by rintro ⟨c1, c2⟩; linarith
    unfold reflect_position
    rw [if_neg n0, if_neg n1, if_pos ⟨b1, b2, b3⟩]
  · rintro ⟨b1, b2, b3⟩
    have n0 : ¬(-Dx < x ∧ x < Dx ∧ -Dy < y ∧ y < Dy) := by
      rintro ⟨c1, c2, c3, c4⟩; linarith
    have n1 : ¬(Dy < y ∧ x < -Dx) := by rintro ⟨c1, c2⟩; linarith
    have n2 : ¬(Dy ≤ y ∧ -Dx ≤ x ∧ x < Dx) := by
      rintro ⟨c1, c2, c3⟩; linarith
    have n3 : ¬(Dy < y ∧ Dx ≤ x) := by rintro ⟨c1, c2⟩; linarith
    unfold reflect_position
    rw [if_neg n0, if_neg n1, if_neg n2, if_neg n3, if_pos ⟨b1, b2, b3⟩]
  · rintro ⟨b1, b2, b3⟩
    have n0 : ¬(-Dx < x ∧ x < Dx ∧ -Dy < y ∧ y < Dy) := by
      rintro ⟨c1, c2, c3, c4⟩; linarith
    have n1 : ¬(Dy < y ∧ x < -Dx) := by rintro ⟨c1, c2⟩; linarith
    have n2 : ¬(Dy ≤ y ∧ -Dx ≤ x ∧ x < Dx) := by
      rintro ⟨c1, c2, c3⟩; linarith
    have n3 : ¬(Dy < y ∧ Dx ≤ x) := by rintro ⟨c1, c2⟩; linarith
    have n4 : ¬(Dx ≤ x ∧ -Dy ≤ y ∧ y ≤ Dy) := by
      rintro ⟨c1, c2, c3⟩; linarith
    have n5 : ¬(Dx ≤ x ∧ y ≤ -Dy) := by rintro ⟨c1, c2⟩; linarith
    unfold reflect_position
    rw [if_neg n0, if_neg n1, if_neg n2, if_neg n3, if_neg n4, if_neg n5,
      if_pos ⟨b1, b2, b3⟩]
  · rintro ⟨b1, b2, b3⟩
    have n0 : ¬(-Dx < x ∧ x < Dx ∧ -Dy < y ∧ y < Dy) := by
      rintro ⟨c1, c2, c3, c4⟩; linarith
    have n1 : ¬(Dy < y ∧ x < -Dx) := by rintro ⟨c1, c2⟩; linarith
    have n2 : ¬(Dy ≤ y ∧ -Dx ≤ x ∧ x < Dx) := by
      rintro ⟨c1, c2, c3⟩; linarith
    have n3 : ¬(Dy < y ∧ Dx ≤ x) := by rintro ⟨c1, c2⟩; linarith
    have n4 : ¬(Dx ≤ x ∧ -Dy ≤ y ∧ y ≤ Dy) := by
      rintro ⟨c1, c2, c3⟩; linarith
    have n5 : ¬(Dx ≤ x ∧ y ≤ -Dy) := by rintro ⟨c1, c2⟩; linarith
    have n6 : ¬(y ≤ -Dy ∧ -Dx ≤ x ∧ x < Dx) := by
      rintro ⟨c1, c2, c3⟩; linarith
    have n7 : ¬(y < -Dy ∧ x < -Dx) := by rintro ⟨c1, c2⟩; linarith
    unfold reflect_position
    rw [if_neg n0, if_neg n1, if_neg n2, if_neg n3, if_neg n4, if_neg n5,
      if_neg n6, if_neg n7, if_pos ⟨b1, le_of_lt b2, le_of_lt b3⟩]
  · rintro ⟨b1, b2⟩
    have n0 : ¬(-Dx < x ∧ x < Dx ∧ -Dy < y ∧ y < Dy) := by
      rintro ⟨c1, c2, c3, c4⟩; linarith
    unfold reflect_position
    rw [if_neg n0, if_pos ⟨b1, b2⟩]
  · rintro ⟨b1, b2⟩
    have n0 : ¬(-Dx < x ∧ x < Dx ∧ -Dy < y ∧ y < Dy) := by
      rintro ⟨c1, c2, c3, c4⟩; linarith
    have n1 : ¬(Dy < y ∧ x < -Dx) := by rintro ⟨c1, c2⟩; linarith
    have n2 : ¬(Dy ≤ y ∧ -Dx ≤ x ∧ x < Dx) := by
      rintro ⟨c1, c2, c3⟩; linarith
    unfold reflect_position
    rw [if_neg n0, if_neg n1, if_neg n2, if_pos ⟨b1, b2⟩]
  · rintro ⟨b1, b2⟩
    have n0 : ¬(-Dx < x ∧ x < Dx ∧ -Dy < y ∧ y < Dy) := by
      rintro ⟨c1, c2, c3, c4⟩; linarith
    have n1 : ¬(Dy < y ∧ x < -Dx) := by rintro ⟨c1, c2⟩; linarith
    have n2 : ¬(Dy ≤ y ∧ -Dx ≤ x ∧ x < Dx) := by
      rintro ⟨c1, c2, c3⟩; linarith
    have n3 : ¬(Dy < y ∧ Dx ≤ x) := by rintro ⟨c1, c2⟩; linarith
    have n4 : ¬(Dx ≤ x ∧ -Dy ≤ y ∧ y ≤ Dy) := by
      rintro ⟨c1, c2, c3⟩; linarith
    unfold reflect_position
    rw [if_neg n0, if_neg n1, if_neg n2, if_neg n3, if_neg n4,
      if_pos ⟨b2, le_of_lt b1⟩]
  · rintro ⟨b1, b2⟩
    have n0 : ¬(-Dx < x ∧ x < Dx ∧ -Dy < y ∧ y < Dy) := by
      rintro ⟨c1, c2, c3, c4⟩; linarith
    have n1 : ¬(Dy < y ∧ x < -Dx) := by rintro ⟨c1, c2⟩; linarith
    have n2 : ¬(Dy ≤ y ∧ -Dx ≤ x ∧ x < Dx) := by
      rintro ⟨c1, c2, c3⟩; linarith
    have n3 : ¬(Dy < y ∧ Dx ≤ x) := by rintro ⟨c1, c2⟩; linarith
    have n4 : ¬(Dx ≤ x ∧ -Dy ≤ y ∧ y ≤ Dy) := by
      rintro ⟨c1, c2, c3⟩; linarith
    have n5 : ¬(Dx ≤ x ∧ y ≤ -Dy) := by rintro ⟨c1, c2⟩; linarith
    have n6 : ¬(y ≤ -Dy ∧ -Dx ≤ x ∧ x < Dx) := by
      rintro ⟨c1, c2, c3⟩; linarith
    unfold reflect_position
    rw [if_neg n0, if_neg n1, if_neg n2, if_neg n3, if_neg n4, if_neg n5,
      if_neg n6, if_pos ⟨b1, b2⟩]

/-- Witness for the amended C4 at Dx = Dy = 1 and the "directly above"
position (0, 2): three images, mirrored across the right, bottom and left
edges. -/
theorem c4_reflection_images_amended_witness :
    (0 : ℚ) < 1 ∧ ((1 : ℚ) ≤ 2 ∧ (-1 : ℚ) ≤ 0 ∧ (0 : ℚ) < 1) ∧
    reflect_position (1 : ℚ) 1 0 2 = some [(2, 2), (0, -4), (-2, 2)] := by
  refine ⟨one_pos, ⟨by norm_num, by norm_num, one_pos⟩, ?_⟩
  have h := (c4_reflection_images_amended (1 : ℚ) 1 0 2 one_pos one_pos).2.1
    ⟨by norm_num, by norm_num, one_pos⟩
  rw [h]
  norm_num

/-- Claim C1: `complex_wave(d, f, xs, ts)` has shape (ts.size, xs.size);
entry [i, j] equals `exp(i*(k*xs[j] - w*ts[i]))` when
`k*xs[j] - w*ts[i] <= 0` and 0 otherwise, with `w = 2*pi*f`,
`k = 2*pi*d(f)`; in particular the value at x = 0, t = 0 is 1, and for
`k > 0` the value at any `x > 0`, `t = 0` is 0. -/
theorem c1_complex_wave_spec (disprel : ℝ → ℝ) (freq : ℝ)
    (xs ts : List ℝ) :
    (complex_wave disprel freq xs ts).length = ts.length ∧
    (∀ i : ℕ, ∀ row : List ℂ,
      (complex_wave disprel freq xs ts)[i]? = some row →
      row.length = xs.length) ∧
    (∀ i j : ℕ, ∀ t x : ℝ, ts[i]? = some t → xs[j]? = some x →
      ∃ row, (complex_wave disprel freq xs ts)[i]? = some row ∧
        row[j]? = some
          (if 2 * Real.pi * disprel freq * x - 2 * Real.pi * freq * t ≤ 0
           then Complex.exp (Complex.I *
             ((2 * Real.pi * disprel freq * x
               - 2 * Real.pi * freq * t : ℝ) : ℂ))
           else 0)) ∧
    complexWaveEntry disprel freq 0 0 = 1 ∧
    (0 < 2 * Real.pi * disprel freq → ∀ x : ℝ, 0 < x →
      complexWaveEntry disprel freq x 0 = 0) := by
  refine ⟨?_, ?_, ?_, ?_, ?_⟩
  · unfold complex_wave
    rw [List.length_map]
  · intro i row h
    unfold complex_wave at h
    rw [List.getElem?_map] at h
    rcases hts : ts[i]? with _ | t
    · rw [hts] at h
      cases h
    · rw [hts, Option.map_some'] at h
      have hrow := Option.some.inj h
      subst hrow
      rw [List.length_map]
  · intro i j t x hts hxs
    refine ⟨xs.map (fun x => complexWaveEntry disprel freq x t), ?_, ?_⟩
    · unfold complex_wave
      rw [List.getElem?_map, hts, Option.map_some']
    · rw [List.getElem?_map, hxs, Option.map_some']
      unfold complexWaveEntry
      rfl
  · simp [complexWaveEntry]
  · intro hk x hx
    have hpos : 0 < 2 * Real.pi * disprel freq * x - 2 * Real.pi * freq * 0 :=
      by simpa using mul_pos hk hx
    unfold complexWaveEntry
    rw [if_neg (not_le.mpr hpos)]

/-- Witness for C1 with the dispersion relation `d(f) = 1` at frequency 1,
positions [0, 1], time [0]: the matrix has one row, the value at the
origin is 1, and the value ahead of the wavefront (x = 1, t = 0) is 0. -/
theorem c1_complex_wave_spec_witness :
    (0:ℝ) < 2 * Real.pi * 1 ∧ (0:ℝ) < 1 ∧
    complexWaveEntry (fun _ => (1:ℝ)) 1 0 0 = 1 ∧
    complexWaveEntry (fun _ => (1:ℝ)) 1 1 0 = 0 ∧
    (complex_wave (fun _ => (1:ℝ)) 1 [0, 1] [0]).length = 1 := by
  have h := c1_complex_wave_spec (fun _ => (1:ℝ)) 1 [0, 1] [0]
  have hk : (0:ℝ) < 2 * Real.pi * 1 := by positivity
  exact ⟨hk, one_pos, h.2.2.2.1, h.2.2.2.2 hk 1 one_pos, h.1⟩

lemma normThreshold_pos : (0 : ℝ) < normThreshold := by
  unfold normThreshold
  positivity

lemma normalizeStep_small (flag : Bool) (d : PyData)
    (h : pyMaxAbs d < normThreshold) : normalizeStep flag d = d := by
  unfold normalizeStep
  rw [if_neg]
  rintro ⟨-, hle⟩
  linarith

/-- Claim C8: a fully configured Wavepacket (sampling, spatial step, time
and space boundaries set, default envelope) with an empty spectrum list
evaluates without any division: the accumulator stays the all-zero Python
scalar `0` and is returned as-is under any normalize flag; and in general
the division by the peak absolute value happens only when that peak is at
least 1e-24. -/
theorem c8_empty_spectrum_guard (w : WPState) (dtv dxv : ℚ) (tl xl : ℚ × ℚ)
    (hspec : w.spectrum = []) (hdt : w.dt = some dtv)
    (htl : w.tlim = some tl) (hdx : w.dx = some dxv)
    (hxl : w.xlim = some xl) (henv : w.envelope = none) :
    wavepacketEval w = .ok .intScalar ∧
    (∀ flag : Bool, ∀ d : PyData, pyMaxAbs d < normThreshold →
      normalizeStep flag d = d) := by
  refine ⟨?_, fun flag d h => normalizeStep_small flag d h⟩
  obtain ⟨wdt, wdx, wtl, wxl, wspec, wdisp, wflag, wenv⟩ := w
  simp only at hspec hdt htl hdx hxl henv
  subst hspec hdt htl hdx hxl henv
  obtain ⟨t1, t2⟩ := tl
  obtain ⟨x1, x2⟩ := xl
  show envelopeStep none ((arange x1 x2 dxv).map (fun q : ℚ => (q : ℝ)))
      (normalizeStep wflag PyData.intScalar) = Except.ok PyData.intScalar
  rw [normalizeStep_small wflag PyData.intScalar normThreshold_pos]
  rfl

/-- Witness for C8: a wavepacket with `dt = dx = 1`, time and space
boundaries (0, 1), empty spectrum, `normalize = True`: eval returns the
all-zero scalar without dividing. -/
theorem c8_empty_spectrum_guard_witness :
    (⟨some 1, some 1, some (0, 1), some (0, 1), [], [fun f => f], true,
      none⟩ : WPState).spectrum = [] ∧
    wavepacketEval ⟨some 1, some 1, some (0, 1), some (0, 1), [],
      [fun f => f], true, none⟩ = .ok .intScalar := by
  have h := c8_empty_spectrum_guard
    ⟨some 1, some 1, some (0, 1), some (0, 1), [], [fun f => f], true, none⟩
    1 1 (0, 1) (0, 1) rfl rfl rfl rfl rfl rfl
  exact ⟨rfl, h.1⟩

/-- Claim C9 (code bug): `Wavepacket.merge` never reaches its documented
behaviour.  For every receiver and every argument - Wavepacket or not -
the call raises `NameError`, because the `isinstance` check of line 335
refers to the undefined lowercase global `wavepacket`; it neither raises
the documented `TypeError` for foreign arguments nor extends the
spectrum/dispersion lists. -/
theorem c9_merge_name_error {A : Type} (a : WPState) (o : A) :
    wp_merge a o = .error (.nameError "name wavepacket is not defined") := by
  rfl

/-- Claim C6 (code bug): evaluating a Surface with at least one source
always raises instead of producing the superposition: the first loop
iteration of `Surface.eval` runs `src.eval()` (whose error propagates when
the copy is unconfigured) and then reads `src.x_vect`, an attribute the
`Wavepacket` class does not define, raising `AttributeError`. -/
theorem c6_superposition_code_bug (c : SurfaceConfig) (flag : Bool)
    (s : WPState) (rest : List WPState) :
    ∃ e, surface_eval c flag (s :: rest) = .error e := by
  rcases h : wavepacketEval s with e | d
  · exact ⟨e, by simp only [surface_eval] ; rw [h]⟩
  · exact ⟨.attributeError "x_vect", by simp only [surface_eval] ; rw [h]⟩

lemma arange_length (s e st : ℚ) :
    (arange s e st).length = (⌈(e - s) / st⌉).toNat := by
  simp [arange]

lemma flip_and_hstack_length (u : List ℚ) :
    (flip_and_hstack u).length = (u.length - 1) + u.length := by
  simp [flip_and_hstack]

lemma c7_len_x : (x_vect c7cfg).length = 9 := by
  unfold x_vect
  rw [flip_and_hstack_length, arange_length]
  have h : ⌈(c7cfg.sizeX / 2 - 0) / c7cfg.dx⌉ = 5 := by
    show ⌈((1 : ℚ) / 2 - 0) / (1 / 10)⌉ = 5
    rw [Int.ceil_eq_iff] ; norm_num
  rw [h]
  rfl

lemma c7_len_y : (y_vect c7cfg).length = 9 := by
  unfold y_vect
  rw [flip_and_hstack_length, arange_length]
  have h : ⌈(c7cfg.sizeY / 2 - 0) / c7cfg.dx⌉ = 5 := by
    show ⌈((1 : ℚ) / 2 - 0) / (1 / 10)⌉ = 5
    rw [Int.ceil_eq_iff] ; norm_num
  rw [h]
  rfl

lemma c7_len_t : (surface_time_vect c7cfg).length = 11 := by
  unfold surface_time_vect
  rw [arange_length]
  have h : ⌈(c7cfg.tlim.2 + 1 / c7cfg.fs / 4 - c7cfg.tlim.1)
      / (1 / c7cfg.fs)⌉ = 11 := by
    show ⌈((1 : ℚ) / 100 + 1 / 1000 / 4 - 0) / (1 / 1000)⌉ = 11
    rw [Int.ceil_eq_iff] ; norm_num
  rw [h]
  rfl

/-- Counterexample for C7: with the scenario parameters (1 x 1 m surface,
dx = 0.1, fs = 1000 Hz, time = (0, 0.01)) the grids built by
`Surface.__init__` have 9 x-points (arange(0, 0.5, 0.1) has 5 samples,
mirrored to 9), 9 y-points, and 11 time samples (the quarter-step pad
makes arange(0, 0.01025, 0.001) include 0.010), so the result array
allocated by `eval` has shape (9, 9, 11) - not (21, 21, 10) as claimed. -/
theorem c7_counterexample :
    ((x_vect c7cfg).length = 9 ∧ (y_vect c7cfg).length = 9 ∧
      (surface_time_vect c7cfg).length = 11) ∧
    ¬((x_vect c7cfg).length = 21 ∧ (y_vect c7cfg).length = 21 ∧
      (surface_time_vect c7cfg).length = 10) := by
  refine ⟨⟨c7_len_x, c7_len_y, c7_len_t⟩, ?_⟩
  rintro ⟨h1, -, -⟩
  have := c7_len_x
  omega

/-- Claim C7 (amended): for the end-to-end scenario the allocated result
shape is (9, 9, 11), not (21, 21, 10); evaluation itself never completes:
the copied source's `time` was never configured (`add_source` sets only
the inert `time_boundary` attribute), so `src.eval()` raises `ValueError`
- and any configured source would still die at `src.x_vect`; and the
causal/sine convention does hold for the scenario's source profile: at
t = 0 its real displacement `-Im` is 0 at every radial position x >= 0. -/
theorem c7_end_to_end_amended :
    ((x_vect c7cfg).length = 9 ∧ (y_vect c7cfg).length = 9 ∧
      (surface_time_vect c7cfg).length = 11) ∧
    surface_eval c7cfg false [add_source_copy c7cfg c7wp] =
      .error (.valueError "time is not set") ∧
    (∀ x : ℝ, 0 ≤ x →
      -(complexWaveEntry (fun f => f / 343) 100 x 0).im = 0) := by
  refine ⟨⟨c7_len_x, c7_len_y, c7_len_t⟩, rfl, ?_⟩
  intro x hx
  rcases eq_or_lt_of_le hx with heq | hlt
  · rw [← heq]
    simp [complexWaveEntry]
  · have hpos : 0 < 2 * Real.pi * ((100 : ℝ) / 343) * x
        - 2 * Real.pi * 100 * 0 := by
      have h1 : (0 : ℝ) < 2 * Real.pi * ((100 : ℝ) / 343) := by positivity
      have := mul_pos h1 hlt
      simpa using this
    simp only [complexWaveEntry]
    rw [if_neg (not_le.mpr hpos)]
    simp

/-- Witness for the amended C7 at radial position x = 1: the source
profile at t = 0 is zero there. -/
theorem c7_end_to_end_amended_witness :
    (0 : ℝ) ≤ 1 ∧ -(complexWaveEntry (fun f => f / 343) 100 1 0).im = 0 :=
  ⟨zero_le_one, c7_end_to_end_amended.2.2 1 zero_le_one⟩

lemma getLastD_append_cons (l1 : List ℚ) (b : ℚ) (t : List ℚ) (d : ℚ) :
    (l1 ++ b :: t).getLastD d = (b :: t).getLastD d := by
  induction l1 generalizing d with
  | nil => rfl
  | cons a l ih =>
      rw [List.cons_append, List.getLastD_cons, ih a, List.getLastD_cons,
        List.getLastD_cons]

lemma last0_append_cons (l1 : List ℚ) (b : ℚ) (t : List ℚ) :
    last0 (l1 ++ b :: t) = last0 (b :: t) := by
  unfold last0
  exact getLastD_append_cons l1 b t 0

lemma last0_map_range (f : ℕ → ℚ) (k : ℕ) :
    last0 ((List.range (k + 1)).map f) = f k := by
  rw [List.range_succ, List.map_append]
  simp [last0, List.getLastD_concat]

/-- Structure of one axis of the surface grid: for positive half-length
and step, the mirrored vector is anti-symmetric under reverse-and-negate,
contains 0 exactly once, has odd length, and its last element is strictly
below the half-length. -/
lemma axis_grid_spec (L st : ℚ) (hL : 0 < L) (hst : 0 < st) :
    ((flip_and_hstack (arange 0 L st)).reverse.map (fun a => -a)
      = flip_and_hstack (arange 0 L st)) ∧
    (flip_and_hstack (arange 0 L st)).count 0 = 1 ∧
    (flip_and_hstack (arange 0 L st)).length % 2 = 1 ∧
    last0 (flip_and_hstack (arange 0 L st)) < L := by
  have hq : 0 < L / st := div_pos hL hst
  have hceil : 0 < ⌈L / st⌉ := Int.ceil_pos.mpr hq
  have hn : 0 < (⌈L / st⌉).toNat := by omega
  obtain ⟨k, hk⟩ := Nat.exists_eq_succ_of_ne_zero (Nat.pos_iff_ne_zero.mp hn)
  have harange : arange 0 L st
      = 0 :: (List.range k).map (fun i : ℕ => ((i : ℚ) + 1) * st) := by
    unfold arange
    rw [sub_zero, hk, List.range_succ_eq_map, List.map_cons, List.map_map]
    congr 1
    · norm_num
    · apply List.map_congr_left
      intro i _
      show (0 : ℚ) + ((Nat.succ i : ℕ) : ℚ) * st = ((i : ℚ) + 1) * st
      push_cast
      ring
  have hflip : flip_and_hstack (arange 0 L st)
      = (((List.range k).map (fun i : ℕ => ((i : ℚ) + 1) * st)).reverse.map
          (fun a => -a))
        ++ (0 :: (List.range k).map (fun i : ℕ => ((i : ℚ) + 1) * st)) := by
    rw [harange]
    rfl
  have htail_pos : ∀ a ∈ (List.range k).map (fun i : ℕ => ((i : ℚ) + 1) * st),
      0 < a := by
    intro a ha
    simp only [List.mem_map, List.mem_range] at ha
    obtain ⟨i, _, rfl⟩ := ha
    have hi : (0 : ℚ) < (i : ℚ) + 1 := by positivity
    exact mul_pos hi hst
  refine ⟨?_, ?_, ?_, ?_⟩
  · rw [hflip]
    simp [List.reverse_append, List.map_append, List.map_reverse,
      List.map_map, Function.comp, neg_neg, List.reverse_cons,
      List.append_assoc]
  · rw [hflip, List.count_append]
    have h1 : (((List.range k).map
        (fun i : ℕ => ((i : ℚ) + 1) * st)).reverse.map
          (fun a => -a)).count 0 = 0 := by
      rw [List.count_eq_zero]
      intro hmem
      simp only [List.mem_map] at hmem
      obtain ⟨a, ha, hza⟩ := hmem
      rw [List.mem_reverse] at ha
      rw [neg_eq_zero] at hza
      have := htail_pos a ha
      rw [hza] at this
      exact lt_irrefl 0 this
    have h2 : ((List.range k).map
        (fun i : ℕ => ((i : ℚ) + 1) * st)).count 0 = 0 := by
      rw [List.count_eq_zero]
      intro hmem
      exact lt_irrefl 0 (htail_pos 0 hmem)
    rw [h1, List.count_cons_self, h2]
  · rw [hflip]
    simp only [List.length_append, List.length_map, List.length_reverse,
      List.length_cons, List.length_range]
    omega
  · have hlast_u : last0 (arange 0 L st) = 0 + (k : ℚ) * st := by
      unfold arange
      rw [sub_zero, hk]
      exact last0_map_range (fun i : ℕ => 0 + (i : ℚ) * st) k
    have hsame : last0 (flip_and_hstack (arange 0 L st))
        = last0 (arange 0 L st) := by
      rw [hflip, last0_append_cons, ← harange]
    have hcast : ((k : ℚ) + 1) = ((⌈L / st⌉ : ℤ) : ℚ) := by
      have h0 : ((⌈L / st⌉).toNat : ℤ) = ⌈L / st⌉ :=
        Int.toNat_of_nonneg (le_of_lt hceil)
      rw [hk] at h0
      have h2 : (((k + 1 : ℕ) : ℤ) : ℚ) = ((⌈L / st⌉ : ℤ) : ℚ) := by
        exact_mod_cast h0
      push_cast at h2
      linarith
    have hlt1 : ((⌈L / st⌉ : ℤ) : ℚ) < L / st + 1 := Int.ceil_lt_add_one _
    have hklt : (k : ℚ) < L / st := by linarith
    have hmul : (k : ℚ) * st < L / st * st :=
      mul_lt_mul_of_pos_right hklt hst
    rw [div_mul_cancel₀ L (ne_of_gt hst)] at hmul
    rw [hsame, hlast_u]
    linarith

/-- Claim C10: for positive size components and positive dx, each surface
axis vector is symmetric about 0 (negating the reverse gives the vector
back), contains 0 exactly once, has odd length; and the stored domain is
rewritten to twice the last coordinate of each vector, which is strictly
smaller than the requested size. -/
theorem c10_grid_symmetry (c : SurfaceConfig)
    (hx : 0 < c.sizeX) (hy : 0 < c.sizeY) (hd : 0 < c.dx) :
    ((x_vect c).reverse.map (fun a => -a) = x_vect c ∧
      (y_vect c).reverse.map (fun a => -a) = y_vect c) ∧
    ((x_vect c).count 0 = 1 ∧ (y_vect c).count 0 = 1) ∧
    ((x_vect c).length % 2 = 1 ∧ (y_vect c).length % 2 = 1) ∧
    surface_domain c = (2 * last0 (x_vect c), 2 * last0 (y_vect c)) ∧
    (2 * last0 (x_vect c) < c.sizeX ∧ 2 * last0 (y_vect c) < c.sizeY) := by
  have hax := axis_grid_spec (c.sizeX / 2) c.dx (by linarith) hd
  have hay := axis_grid_spec (c.sizeY / 2) c.dx (by linarith) hd
  refine ⟨⟨hax.1, hay.1⟩, ⟨hax.2.1, hay.2.1⟩, ⟨hax.2.2.1, hay.2.2.1⟩,
    rfl, ?_, ?_⟩
  · have h := hax.2.2.2
    unfold x_vect
    linarith
  · have h := hay.2.2.2
    unfold y_vect
    linarith

/-- Witness for C10 at the 1 x 1 m, dx = 0.1 configuration: the x grid
contains 0 exactly once and the rewritten domain extent 2*0.4 = 0.8 is
smaller than the requested size 1. -/
theorem c10_grid_symmetry_witness :
    (0 : ℚ) < c7cfg.sizeX ∧ (0 : ℚ) < c7cfg.sizeY ∧ (0 : ℚ) < c7cfg.dx ∧
    (x_vect c7cfg).count 0 = 1 ∧ 2 * last0 (x_vect c7cfg) < c7cfg.sizeX := by
  have h := c10_grid_symmetry c7cfg (by norm_num [c7cfg])
    (by norm_num [c7cfg]) (by norm_num [c7cfg])
  exact ⟨by norm_num [c7cfg], by norm_num [c7cfg], by norm_num [c7cfg],
    h.2.1.1, h.2.2.2.2.1⟩
